import Mathlib

/-!
Shallow embedding of `steam_queue_creator.py` (Super Steam Packer Queue Creator)
and verification of its specification claims.

Files on disk are modelled as `Option (List String)`: `none` means the file does
not exist, `some lines` is its content as the list of newline-separated lines
(the program always writes files as a join of lines with a single newline and
never with a trailing newline, so this representation is lossless).
Network responses are inputs to the embedded functions: the per-identifier
detail endpoint is a function `String → DetailResponse`, the bulk catalog
endpoint a list of identifier/name pairs. Wall-clock time for the rate limiter
is modelled over `ℚ` with a deterministic `sleep`.
-/

namespace SteamQueueCreator

/-- The settings fields (from `settings.json`) consumed by the modelled core:
per-platform enable flags, the Denuvo filter toggle, test mode and its limit,
and the queue-from-file mode toggle. -/
structure Settings where
  windows : Bool
  mac : Bool
  linux : Bool
  filter_denuvo : Bool
  test_mode : Bool
  test_limit : Nat
  queue_from_file : Bool
  deriving Repr, DecidableEq

/-- The fields of one `appdetails` record that `get_platforms` reads on the
success path (lines 162–166 of the source): the optional `name`, the three
`platforms` flags, `is_free`, and the optional `drm_notice` text. -/
structure AppData where
  name : Option String
  win : Bool
  mac : Bool
  linux : Bool
  is_free : Bool
  drm_notice : Option String
  deriving Repr, DecidableEq

/-- Outcome of the per-identifier detail request: `error` stands for any
transport/parse/timeout exception raised during the request, `failure` for a
response whose `success` flag is falsy or from which the identifier is absent,
`success d` for a well-formed successful record. -/
inductive DetailResponse where
  | error : DetailResponse
  | failure : DetailResponse
  | success : AppData → DetailResponse
  deriving Repr, DecidableEq

/-- `startsWithL needle hay`: `needle` is a prefix of `hay` (character lists). -/
def startsWithL : List Char → List Char → Bool
  | [], _ => true
  | _ :: _, [] => false
  | a :: as, b :: bs => a = b && startsWithL as bs

/-- `containsSub hay needle`: `needle` occurs as a contiguous substring of
`hay`. Models Python's `needle in hay` on strings. -/
def containsSub : List Char → List Char → Bool
  | hay, needle =>
    startsWithL needle hay ||
      match hay with
      | [] => false
      | _ :: t => containsSub t needle

/-- Python's `needle in hay` substring test. -/
def pyIn (needle hay : String) : Bool :=
  containsSub hay.data needle.data

/-- Python's `str.lower()`. -/
def strLower (s : String) : String :=
  ⟨s.data.map Char.toLower⟩

/-- `strEndsWith s suffix`: `s` ends with `suffix`. -/
def strEndsWith (s suffix : String) : Bool :=
  startsWithL suffix.data.reverse s.data.reverse

/-- Python's `str.capitalize()` restricted to what the source uses (first
character upper-cased, rest lower-cased). -/
def pyCapitalize (s : String) : String :=
  match s.data with
  | [] => ""
  | c :: cs => ⟨c.toUpper :: cs.map Char.toLower⟩

/-- Python's `s[:3]`. -/
def take3 (s : String) : String :=
  ⟨s.data.take 3⟩

/-- Python's `name.encode('ascii', 'ignore').decode('ascii')`: drop every
non-ASCII code point. -/
def asciiClean (s : String) : String :=
  ⟨s.data.filter (fun c => c.toNat < 128)⟩

/-- The whitespace characters stripped by Python's `str.strip()` (ASCII
subset; the identifiers and lines handled here are ASCII). -/
def pyIsSpace (c : Char) : Bool :=
  c = ' ' || c = '\t' || c = '\n' || c = '\r' ||
    c = Char.ofNat 11 || c = Char.ofNat 12

/-- Python's `str.strip()`: drop leading and trailing whitespace. -/
def pyStrip (s : String) : String :=
  ⟨((s.data.dropWhile pyIsSpace).reverse.dropWhile pyIsSpace).reverse⟩

/-- The prefix of `l` before the first occurrence of `sep`, or all of `l` if
`sep` does not occur. -/
def splitHeadAux (sep : List Char) : List Char → List Char
  | [] => []
  | c :: rest =>
    if startsWithL sep (c :: rest) then [] else c :: splitHeadAux sep rest

/-- Python's `s.split(sep)[0]` for nonempty `sep`: the text before the first
occurrence of the separator. -/
def pySplitHead (s sep : String) : String :=
  ⟨splitHeadAux sep.data s.data⟩

/-- Line 166 of the source:
`has_denuvo = 'drm_notice' in app_data and 'Denuvo Anti-tamper' in app_data['drm_notice']`.
Note the match is a case-sensitive substring test against the single hardcoded
string. -/
def hasDenuvo (d : AppData) : Bool :=
  match d.drm_notice with
  | none => false
  | some notice => pyIn "Denuvo Anti-tamper" notice

/-- Whether the detail record reports the given platform key as supported
(`platforms.get(platform)`). -/
def platformSupported (d : AppData) : String → Bool
  | "windows" => d.win
  | "mac" => d.mac
  | "linux" => d.linux
  | _ => false

/-- Whether the given platform key is enabled in configuration
(`self.platforms[platform]`). -/
def platformEnabled (s : Settings) : String → Bool
  | "windows" => s.windows
  | "mac" => s.mac
  | "linux" => s.linux
  | _ => false

/-- The literal list iterated at line 175:
`[('windows', 'win64'), ('mac', 'macos'), ('linux', 'lin64')]`. -/
def platformTriples : List (String × String) :=
  [("windows", "win64"), ("mac", "macos"), ("linux", "lin64")]

/-- The per-platform loop of lines 175–180: builds the display list
(`available`) and the queue-eligible list (`queue_platforms`) in source order.
`includeQueue` is the loop-invariant condition
`(not has_denuvo or not filter_denuvo) and not is_free`. -/
def platformScan (s : Settings) (d : AppData) (includeQueue : Bool) :
    List (String × String) → List String × List String
  | [] => ([], [])
  | (platform, code) :: rest =>
    let (av, qp) := platformScan s d includeQueue rest
    if platformSupported d platform && platformEnabled s platform then
      (take3 (pyCapitalize platform) :: av,
        if includeQueue then code :: qp else qp)
    else
      (av, qp)

/-- Result triple of `get_platforms`: the display string, the queue-eligible
platform codes, and the display name. -/
structure Classification where
  platforms_str : String
  queue_platforms : List String
  game_name : String
  deriving Repr, DecidableEq

/-- `SteamGameProcessor.get_platforms` (lines 148–191) as a function of the
identifier and the outcome of the detail request. An exception (`error`) or a
non-success response (`failure`) both reach the fallback
`return 'Unknown', [], str(app_id)` at line 191. -/
def get_platforms (s : Settings) (app_id : String) (resp : DetailResponse) :
    Classification :=
  match resp with
  | .success d =>
    let is_free := d.is_free
    let has_denuvo := hasDenuvo d
    let includeQueue := (!has_denuvo || !s.filter_denuvo) && !is_free
    let scan := platformScan s d includeQueue platformTriples
    let available := scan.1
    let queue_platforms := scan.2
    let platforms_str :=
      if available.isEmpty then "Unknown" else String.intercalate "/" available
    let platforms_str :=
      if has_denuvo then platforms_str ++ " [DENUVO]" else platforms_str
    { platforms_str := platforms_str
      queue_platforms := queue_platforms
      game_name := d.name.getD app_id }
  | _ => { platforms_str := "Unknown", queue_platforms := [], game_name := app_id }

/-! ### Pipeline embedding (`_process_games_list`, `process_queue_from_file`,
`process_games`, work-list computation, `get_software`) -/

/-- Observable events of a pipeline run, in order: the blocking confirmation
prompt (`input(...)`, line 252), one detail request per classified identifier
(line 274 calling `get_platforms`), the test-mode limit log (line 259), the
final queue summary log (line 301) or the "no valid games" log (line 305),
and the error log of the file-mode entry point (line 221). -/
inductive Event where
  | confirm : Event
  | detailRequest : String → Event
  | logTestLimit : Event
  | logCreatedQueue : Nat → Event
  | logNoGames : Event
  | logError : Event
  deriving Repr, DecidableEq

/-- Recognizer for detail-request events. -/
def isDetailRequest : Event → Bool
  | .detailRequest _ => true
  | _ => false

/-- The games-log line built at line 279:
`f"{game_id} #{clean_name} [{platforms_str}]"`. -/
def gamesLine (s : Settings) (resp : String → DetailResponse) (app_id : String) :
    String :=
  let c := get_platforms s app_id (resp app_id)
  app_id ++ " #" ++ asciiClean c.game_name ++ " [" ++ c.platforms_str ++ "]"

/-- The queue lines contributed by one identifier at line 282:
`f"{platform}|{game_id}|Public|"` for each queue-eligible platform code. -/
def queueLines (s : Settings) (resp : String → DetailResponse) (app_id : String) :
    List String :=
  (get_platforms s app_id (resp app_id)).queue_platforms.map
    (fun platform => platform ++ "|" ++ app_id ++ "|Public|")

/-- The `for game_id in game_ids` loop of lines 257–284, with the current
`processed_count` as explicit state. Returns `(games_list, queue_data, events)`
accumulated from this point on; the loop breaks (logging the test-mode
message) as soon as test mode is on and `processed_count >= test_limit`. -/
def runLoop (s : Settings) (resp : String → DetailResponse) :
    List String → Nat → List String × List String × List Event
  | [], _ => ([], [], [])
  | app_id :: rest, processed =>
    if s.test_mode && decide (s.test_limit ≤ processed) then
      ([], [], [Event.logTestLimit])
    else
      let r := runLoop s resp rest (processed + 1)
      (gamesLine s resp app_id :: r.1,
        queueLines s resp app_id ++ r.2.1,
        Event.detailRequest app_id :: r.2.2)

/-- Final state of one pipeline run: the event trace and the two output files
(each `none` if absent, otherwise its list of lines). -/
structure RunResult where
  events : List Event
  gamesFile : Option (List String)
  queueFile : Option (List String)
  deriving Repr, DecidableEq

/-- `SteamGameProcessor._process_games_list` (lines 238–307): runs the loop,
then writes the games log (append after a separator when the file exists and
`queue_from_file` is off, full overwrite otherwise; only when `games_list` is
nonempty), then fully overwrites the queue file when `queue_data` is nonempty
and otherwise logs "no valid games" and leaves it untouched. -/
def processGamesList (s : Settings) (resp : String → DetailResponse)
    (gamesFile queueFile : Option (List String)) (game_ids : List String) :
    RunResult :=
  let r := runLoop s resp game_ids 0
  let games_list := r.1
  let queue_data := r.2.1
  let gamesFileNew :=
    if games_list.isEmpty then gamesFile
    else
      match gamesFile, s.queue_from_file with
      | some old, false => some (old ++ games_list)
      | _, _ => some games_list
  let queueFileNew :=
    if queue_data.isEmpty then queueFile else some queue_data
  let finalEvents :=
    if queue_data.isEmpty then [Event.logNoGames]
    else [Event.logCreatedQueue queue_data.length]
  { events := Event.confirm :: (r.2.2 ++ finalEvents)
    gamesFile := gamesFileNew
    queueFile := queueFileNew }

/-- Line 226: `line.split('#')[0].strip()`. -/
def inputLineId (line : String) : String :=
  pyStrip (pySplitHead line "#")

/-- Lines 225–226: the identifiers read from the input file (nonblank lines,
text before `#`, stripped). -/
def parseInputFile (lines : List String) : List String :=
  (lines.filter (fun l => pyStrip l != "")).map inputLineId

/-- `SteamGameProcessor.process_queue_from_file` (lines 216–233): logs an
error if the input file is missing, logs "no games" and stops before the
confirmation gate if the parsed identifier list is empty, and otherwise runs
`_process_games_list`. -/
def process_queue_from_file (s : Settings) (resp : String → DetailResponse)
    (inputFile gamesFile queueFile : Option (List String)) : RunResult :=
  match inputFile with
  | none => { events := [Event.logError], gamesFile := gamesFile, queueFile := queueFile }
  | some lines =>
    let game_ids := parseInputFile lines
    if game_ids.isEmpty then
      { events := [Event.logNoGames], gamesFile := gamesFile, queueFile := queueFile }
    else
      processGamesList s resp gamesFile queueFile game_ids

/-- The id set parse shared by `_get_existing_games` (line 136) and
`get_software` (line 200): `{line.split(' #')[0] for line in f if line.strip()}`. -/
def parseIdLines (lines : List String) : List String :=
  (lines.filter (fun l => pyStrip l != "")).map (fun l => pySplitHead l " #")

/-- `SteamGameProcessor._get_existing_games` (lines 130–136): the identifiers
of the games log, one per nonblank line, text before `' #'`; empty when the
file does not exist. -/
def getExistingGames (gamesFile : Option (List String)) : List String :=
  match gamesFile with
  | none => []
  | some lines => parseIdLines lines

/-- Lines 322–325: the normal-mode work list
`[id for id in games.keys() if id not in software_ids and id not in existing_games]`. -/
def computeWorkList (owned software existing : List String) : List String :=
  owned.filter (fun app_id => !software.contains app_id && !existing.contains app_id)

/-- `SteamGameProcessor.process_games` normal-mode tail (lines 315–327) with
the two fetches abstracted as inputs: `software` is the id set returned by
`get_software`, `owned` the identifiers of the fetched library (in source
order), and `gamesFile` the games log as it stood at startup (from which
`self.existing_games` was loaded). -/
def process_games (s : Settings) (resp : String → DetailResponse)
    (software owned : List String) (gamesFile queueFile : Option (List String)) :
    RunResult :=
  processGamesList s resp gamesFile queueFile
    (computeWorkList owned software (getExistingGames gamesFile))

/-- The catalog line written at line 211: `f"{app_id} #{clean_name}"` with the
name sanitized to ASCII. -/
def catalogLine (app_id name : String) : String :=
  app_id ++ " #" ++ asciiClean name

/-- The append loop of `get_software` (lines 207–212): for each parsed
`(app_id, name)` pair, if the id is not yet known, emit its catalog line and
add the id to the known set. Returns the emitted lines (in order) and the
final known-id set. -/
def getSoftwareLoop : List (String × String) → List String → List String × List String
  | [], existing => ([], existing)
  | (app_id, name) :: rest, existing =>
    if existing.contains app_id then getSoftwareLoop rest existing
    else
      let r := getSoftwareLoop rest (app_id :: existing)
      (catalogLine app_id name :: r.1, r.2)

/-- Lines 196–200 of `get_software`: the identifiers already present in the
software file (empty set when the file does not exist) — the identical parse
to `_get_existing_games`. -/
def existingSoftwareIds (softwareFile : Option (List String)) : List String :=
  match softwareFile with
  | none => []
  | some lines => parseIdLines lines

/-- `SteamGameProcessor.get_software` (lines 193–214) with the bulk response
abstracted as the parsed `(app_id, name)` pairs: reads the existing ids from
the software file, appends one catalog line per not-yet-known id, and returns
the written file together with the complete known-id set. -/
def get_software (softwareFile : Option (List String))
    (new_entries : List (String × String)) : Option (List String) × List String :=
  let r := getSoftwareLoop new_entries (existingSoftwareIds softwareFile)
  (some (softwareFile.getD [] ++ r.1), r.2)

/-! ### Rate limiter embedding -/

/-- The sleep performed by `_enforce_rate_limit` (lines 84–91) when called at
wall-clock time `now` with shared timestamp `last`:
`rate_limit - (now - last)` when the elapsed time is below `rate_limit`,
otherwise no sleep. -/
def rlSleep (rate_limit now last : ℚ) : ℚ :=
  if now - last < rate_limit then rate_limit - (now - last) else 0

/-- The value stored into `self.last_request_time` at line 93: the wall-clock
time right after the sleep ends — i.e. the start time of the network call that
follows — under a deterministic clock that advances by exactly the slept
duration. -/
def rlNext (rate_limit now last : ℚ) : ℚ :=
  now + rlSleep rate_limit now last

/-- `get_platforms` with its rate limiting made explicit (lines 148–159):
`_enforce_rate_limit` runs *before* the request is attempted, so the returned
timestamp is `rlNext rate_limit now last` whatever the response turns out to
be. Returns the classification and the new shared timestamp. -/
def get_platforms_timed (s : Settings) (rate_limit : ℚ) (app_id : String)
    (resp : DetailResponse) (now last : ℚ) : Classification × ℚ :=
  let last2 := rlNext rate_limit now last
  (get_platforms s app_id resp, last2)

/-! ### Concrete inputs used by counterexamples and witnesses -/

/-- A concrete detail record whose DRM notice is the upper-case spelling
`"DENUVO ANTI-TAMPER"`: Windows-supported, non-free. -/
def c1Data : AppData :=
  { name := some "Game", win := true, mac := false, linux := false,
    is_free := false, drm_notice := some "DENUVO ANTI-TAMPER" }

/-- A configuration with all platforms enabled and the DRM filter on. -/
def c1Settings : Settings :=
  { windows := true, mac := true, linux := true, filter_denuvo := true,
    test_mode := false, test_limit := 0, queue_from_file := false }

/-- A response oracle that fails on identifier `"202"` and succeeds with a
plain Windows-only paid record otherwise. -/
def sampleResp : String → DetailResponse := fun app_id =>
  if app_id = "202" then .error
  else .success
    { name := some ("Game" ++ app_id), win := true, mac := false, linux := false,
      is_free := false, drm_notice := none }

/-- Normal-mode settings with test mode off. -/
def normalSettings : Settings :=
  { windows := true, mac := true, linux := true, filter_denuvo := true,
    test_mode := false, test_limit := 5, queue_from_file := false }

/-- Settings with test mode on and a limit of 3. -/
def testModeSettings : Settings :=
  { windows := true, mac := true, linux := true, filter_denuvo := true,
    test_mode := true, test_limit := 3, queue_from_file := false }

/-- A ten-identifier work list. -/
def tenIds : List String :=
  ["1", "2", "3", "4", "5", "6", "7", "8", "9", "10"]

/-- The same record as `c1Data` but with the DRM notice in the exact-case
spelling used by the code. -/
def c1DataExact : AppData :=
  { name := some "Game", win := true, mac := false, linux := false,
    is_free := false, drm_notice := some "Denuvo Anti-tamper" }

/-- A Windows-only, paid, DRM-free record. -/
def winOnlyData : AppData :=
  { name := some "Game101", win := true, mac := false, linux := false,
    is_free := false, drm_notice := none }

/-- A free record supported on all three platforms. -/
def freeData : AppData :=
  { name := some "FreeGame", win := true, mac := true, linux := true,
    is_free := true, drm_notice := none }

/-! ### Helper lemmas -/

/-- On a successful response, `queue_platforms` is the second component of the
platform scan with the include condition of line 179. -/
theorem get_platforms_success_queue (s : Settings) (app_id : String) (d : AppData) :
    (get_platforms s app_id (.success d)).queue_platforms =
      (platformScan s d ((!hasDenuvo d || !s.filter_denuvo) && !d.is_free)
        platformTriples).2 := rfl

/-- With test mode off, the loop classifies every identifier: the accumulators
are the per-identifier games-log lines, the concatenated queue lines, and one
detail request per identifier, all in work-list order. -/
theorem runLoop_no_test (s : Settings) (resp : String → DetailResponse)
    (htm : s.test_mode = false) (ids : List String) (n : Nat) :
    runLoop s resp ids n =
      (ids.map (gamesLine s resp), ids.flatMap (queueLines s resp),
        ids.map Event.detailRequest) := by
  induction ids generalizing n with
  | nil => rfl
  | cons a rest ih => simp [runLoop, htm, ih]

/-- Every detail request issued by the loop is for a work-list identifier. -/
theorem runLoop_requests_mem (s : Settings) (resp : String → DetailResponse)
    (ids : List String) (n : Nat) (x : String)
    (h : Event.detailRequest x ∈ (runLoop s resp ids n).2.2) : x ∈ ids := by
  induction ids generalizing n with
  | nil => simp [runLoop] at h
  | cons a rest ih =>
    by_cases hb : (s.test_mode && decide (s.test_limit ≤ n)) = true
    · simp [runLoop, hb] at h
    · simp [runLoop, hb] at h
      rcases h with h | h
      · simp [h]
      · exact List.mem_cons_of_mem _ (ih _ h)

/-- With test mode on, the loop started at count `n` issues exactly
`min ids.length (test_limit - n)` detail requests. -/
theorem runLoop_count_test (s : Settings) (resp : String → DetailResponse)
    (htm : s.test_mode = true) (ids : List String) (n : Nat) :
    ((runLoop s resp ids n).2.2.countP isDetailRequest) =
      min ids.length (s.test_limit - n) := by
  induction ids generalizing n with
  | nil => simp [runLoop]
  | cons a rest ih =>
    by_cases hb : s.test_limit ≤ n
    · simp [runLoop, htm, hb, List.countP_cons, isDetailRequest]
    · have hc : (s.test_mode && decide (s.test_limit ≤ n)) = false := by simp [htm, hb]
      simp [runLoop, hc, List.countP_cons, isDetailRequest, ih]
      omega

/-- With test mode on, the loop started at count `n` hits the test-limit break
iff the remaining capacity is smaller than the remaining work list. -/
theorem runLoop_testlimit_mem (s : Settings) (resp : String → DetailResponse)
    (htm : s.test_mode = true) (ids : List String) (n : Nat) :
    (Event.logTestLimit ∈ (runLoop s resp ids n).2.2 ↔
      s.test_limit - n < ids.length) := by
  induction ids generalizing n with
  | nil => simp [runLoop]
  | cons a rest ih =>
    by_cases hb : s.test_limit ≤ n
    · simp [runLoop, htm, hb]
    · have hc : (s.test_mode && decide (s.test_limit ≤ n)) = false := by simp [htm, hb]
      simp [runLoop, hc, ih]
      omega

/-- The games file written by `_process_games_list` (lines 288–295), unfolded. -/
theorem processGamesList_gamesFile (s : Settings) (resp : String → DetailResponse)
    (gf qf : Option (List String)) (ids : List String) :
    (processGamesList s resp gf qf ids).gamesFile =
      if (runLoop s resp ids 0).1.isEmpty then gf
      else match gf, s.queue_from_file with
        | some old, false => some (old ++ (runLoop s resp ids 0).1)
        | _, _ => some ((runLoop s resp ids 0).1) := rfl

/-- The queue file written by `_process_games_list` (lines 297–305), unfolded. -/
theorem processGamesList_queueFile (s : Settings) (resp : String → DetailResponse)
    (gf qf : Option (List String)) (ids : List String) :
    (processGamesList s resp gf qf ids).queueFile =
      if (runLoop s resp ids 0).2.1.isEmpty then qf
      else some ((runLoop s resp ids 0).2.1) := rfl

/-- The event trace of `_process_games_list`, unfolded. -/
theorem processGamesList_events (s : Settings) (resp : String → DetailResponse)
    (gf qf : Option (List String)) (ids : List String) :
    (processGamesList s resp gf qf ids).events =
      Event.confirm :: ((runLoop s resp ids 0).2.2 ++
        (if (runLoop s resp ids 0).2.1.isEmpty then [Event.logNoGames]
         else [Event.logCreatedQueue ((runLoop s resp ids 0).2.1.length)])) := rfl

/-- `rlNext` is always at least `last + rate_limit`: a call start is never
less than one full interval after the previous stored timestamp. -/
theorem rlNext_lower_bound (rate_limit now last : ℚ) :
    last + rate_limit ≤ rlNext rate_limit now last := by
  rw [rlNext, rlSleep]
  split_ifs with h
  · linarith
  · linarith

/-- Membership in the id set returned by the `get_software` append loop:
exactly the pre-existing ids plus the ids of the fetched entries. -/
theorem getSoftwareLoop_ids_mem (es : List (String × String)) (ex : List String)
    (x : String) :
    x ∈ (getSoftwareLoop es ex).2 ↔ x ∈ ex ∨ x ∈ es.map Prod.fst := by
  induction es generalizing ex with
  | nil => simp [getSoftwareLoop]
  | cons e rest ih =>
    obtain ⟨a, nm⟩ := e
    by_cases hc : a ∈ ex
    · have hcc : ex.contains a = true := by simpa using hc
      simp only [getSoftwareLoop, hcc, if_pos, List.map_cons, List.mem_cons]
      rw [ih]
      constructor
      · tauto
      · rintro (h | h | h)
        · tauto
        · subst h; tauto
        · tauto
    · have hcc : ex.contains a = false := by simpa using hc
      simp only [getSoftwareLoop, hcc, Bool.false_eq_true, if_false,
        List.map_cons, List.mem_cons]
      rw [ih]
      simp only [List.mem_cons]
      tauto

/-- When every fetched id is already known, the append loop writes nothing. -/
theorem getSoftwareLoop_appends_none (es : List (String × String))
    (ex : List String) (h : ∀ e ∈ es, e.1 ∈ ex) : (getSoftwareLoop es ex).1 = [] := by
  induction es generalizing ex with
  | nil => rfl
  | cons e rest ih =>
    obtain ⟨a, nm⟩ := e
    have ha : a ∈ ex := h (a, nm) (List.mem_cons_self _ _)
    have hcc : ex.contains a = true := by simpa using ha
    simp only [getSoftwareLoop, hcc, if_pos]
    exact ih ex (fun e he => h e (List.mem_cons_of_mem _ he))

/-- The id parse distributes over file concatenation. -/
theorem parseIdLines_append (a b : List String) :
    parseIdLines (a ++ b) = parseIdLines a ++ parseIdLines b := by
  simp [parseIdLines, List.filter_append]

/-- After the append loop runs, every fetched id is either pre-existing or
parseable back out of one of the appended lines (given that each appended
line is nonblank and round-trips to its id). -/
theorem getSoftwareLoop_covered (es : List (String × String))
    (H : ∀ e ∈ es, (pyStrip (catalogLine e.1 e.2) != "") = true ∧
      pySplitHead (catalogLine e.1 e.2) " #" = e.1) :
    ∀ ex, ∀ e ∈ es, e.1 ∈ ex ∨ e.1 ∈ parseIdLines (getSoftwareLoop es ex).1 := by
  induction es with
  | nil => intro ex e he; simp at he
  | cons p rest ih =>
    intro ex e he
    obtain ⟨a, nm⟩ := p
    by_cases hc : a ∈ ex
    · have hcc : ex.contains a = true := by simpa using hc
      simp only [getSoftwareLoop, hcc, if_pos]
      rcases List.mem_cons.1 he with he2 | he2
      · subst he2; exact Or.inl hc
      · exact ih (fun e h2 => H e (List.mem_cons_of_mem _ h2)) ex e he2
    · have hcc : ex.contains a = false := by simpa using hc
      simp only [getSoftwareLoop, hcc, Bool.false_eq_true, if_false]
      have hH := H (a, nm) (List.mem_cons_self _ _)
      have hparse : parseIdLines (catalogLine a nm :: (getSoftwareLoop rest (a :: ex)).1) =
          a :: parseIdLines (getSoftwareLoop rest (a :: ex)).1 := by
        simp only [parseIdLines, List.filter_cons, hH.1, if_pos, List.map_cons]
        rw [hH.2]
      rw [hparse]
      rcases List.mem_cons.1 he with he2 | he2
      · subst he2
        exact Or.inr (List.mem_cons_self _ _)
      · rcases ih (fun e h2 => H e (List.mem_cons_of_mem _ h2)) (a :: ex) e he2 with
          hm | hm
        · rcases List.mem_cons.1 hm with hm | hm
          · exact Or.inr (by rw [hm]; exact List.mem_cons_self _ _)
          · exact Or.inl hm
        · exact Or.inr (List.mem_cons_of_mem _ hm)

/-- The pre-existing id set is the parse of the file's lines (or of `[]` when
the file does not exist). -/
theorem existingSoftwareIds_getD (sf : Option (List String)) :
    existingSoftwareIds sf = parseIdLines (sf.getD []) := by
  cases sf <;> rfl

/-! ### Claims -/

/-- **C1.** The claim asserts the DRM notice is matched *case-insensitively*
(against a configurable pattern list). The code (line 166) performs a
case-sensitive substring test against the single hardcoded string
`"Denuvo Anti-tamper"`. Failing input: a record whose DRM notice is
`"DENUVO ANTI-TAMPER"` — it contains the pattern case-insensitively (first
conjunct), yet the derived display string does not end with `" [DENUVO]"`
(second conjunct); it is just `"Win"` (third conjunct), contradicting the
claim. -/
theorem c1_denuvo_match_case_bug :
    pyIn (strLower "Denuvo Anti-tamper") (strLower "DENUVO ANTI-TAMPER") = true ∧
    strEndsWith (get_platforms c1Settings "1091500" (.success c1Data)).platforms_str
      " [DENUVO]" = false ∧
    (get_platforms c1Settings "1091500" (.success c1Data)).platforms_str = "Win" ∧
    strEndsWith (get_platforms c1Settings "1091500" (.success c1DataExact)).platforms_str
      " [DENUVO]" = true := by
  decide

set_option maxHeartbeats 1000000 in
/-- **C2.** Queue eligibility on a successful classification: each platform's
queue code is in the queue-eligible list iff the remote reports the platform
supported and it is enabled in configuration, the title is not free, and
either no DRM was detected or the DRM filter is disabled. In particular a
free title is never queue-eligible on any platform. -/
theorem c2_queue_eligibility (s : Settings) (app_id : String) (d : AppData) :
    (("win64" ∈ (get_platforms s app_id (.success d)).queue_platforms) ↔
      (d.win = true ∧ s.windows = true) ∧ d.is_free = false ∧
        (hasDenuvo d = false ∨ s.filter_denuvo = false)) ∧
    (("macos" ∈ (get_platforms s app_id (.success d)).queue_platforms) ↔
      (d.mac = true ∧ s.mac = true) ∧ d.is_free = false ∧
        (hasDenuvo d = false ∨ s.filter_denuvo = false)) ∧
    (("lin64" ∈ (get_platforms s app_id (.success d)).queue_platforms) ↔
      (d.linux = true ∧ s.linux = true) ∧ d.is_free = false ∧
        (hasDenuvo d = false ∨ s.filter_denuvo = false)) ∧
    (d.is_free = true → (get_platforms s app_id (.success d)).queue_platforms = []) := by
  obtain ⟨nm, w, m, l, fr, drm⟩ := d
  obtain ⟨sw, sm, sl, fd, tm, tl, qff⟩ := s
  rw [get_platforms_success_queue]
  cases hdn : hasDenuvo ⟨nm, w, m, l, fr, drm⟩ <;>
    cases w <;> cases m <;> cases l <;> cases fr <;>
    cases sw <;> cases sm <;> cases sl <;> cases fd <;>
    simp_all [platformScan, platformSupported, platformEnabled, platformTriples]

/-- Witness for C2: a paid, DRM-free, Windows-only record is queue-eligible on
`win64`; a free record is queue-eligible on no platform. -/
theorem c2_queue_eligibility_witness :
    "win64" ∈ (get_platforms normalSettings "101" (.success winOnlyData)).queue_platforms ∧
    (get_platforms normalSettings "102" (.success freeData)).queue_platforms = [] :=
  ⟨(c2_queue_eligibility normalSettings "101" winOnlyData).1.mpr
      ⟨⟨rfl, rfl⟩, rfl, Or.inl rfl⟩,
    (c2_queue_eligibility normalSettings "102" freeData).2.2.2 rfl⟩

/-- **C3.** An exception during the detail request, or a non-success/absent
response, degrades to the Unknown classification — display string
`"Unknown"`, empty queue-eligible list, display name the identifier itself —
and the run continues: the games log still gains a line for that identifier. -/
theorem c3_unknown_classification (s : Settings) (resp : String → DetailResponse)
    (app_id : String)
    (h : resp app_id = DetailResponse.error ∨ resp app_id = DetailResponse.failure)
    (htm : s.test_mode = false) (ids : List String) (hmem : app_id ∈ ids)
    (gamesFile queueFile : Option (List String)) :
    get_platforms s app_id (resp app_id) =
      { platforms_str := "Unknown", queue_platforms := [], game_name := app_id } ∧
    (app_id ++ " #" ++ asciiClean app_id ++ " [Unknown]") ∈
      ((processGamesList s resp gamesFile queueFile ids).gamesFile.getD []) := by
  have hgp : get_platforms s app_id (resp app_id) =
      { platforms_str := "Unknown", queue_platforms := [], game_name := app_id } := by
    rcases h with h | h <;> rw [h] <;> rfl
  refine ⟨hgp, ?_⟩
  have hline : gamesLine s resp app_id =
      app_id ++ " #" ++ asciiClean app_id ++ " [Unknown]" := by
    rw [gamesLine, hgp]
    simp [String.append_assoc]
  have hmem2 : (app_id ++ " #" ++ asciiClean app_id ++ " [Unknown]") ∈
      ids.map (gamesLine s resp) := by
    rw [← hline]
    exact List.mem_map_of_mem _ hmem
  have hne : (ids.map (gamesLine s resp)).isEmpty = false := by
    rcases ids with _ | ⟨a, rest⟩
    · simp at hmem
    · simp
  rw [processGamesList_gamesFile, runLoop_no_test s resp htm, hne]
  rcases gamesFile with _ | old <;> cases hq : s.queue_from_file <;>
    simp_all

/-- Witness for C3: the detail fetch for `"202"` raises, yet the run returns
the Unknown classification and the games log gains the line
`"202 #202 [Unknown]"`. -/
theorem c3_unknown_classification_witness :
    get_platforms normalSettings "202" (sampleResp "202") =
      { platforms_str := "Unknown", queue_platforms := [], game_name := "202" } ∧
    ("202" ++ " #" ++ asciiClean "202" ++ " [Unknown]") ∈
      ((processGamesList normalSettings sampleResp none none
        ["101", "202"]).gamesFile.getD []) :=
  c3_unknown_classification normalSettings sampleResp "202" (Or.inl rfl) rfl
    ["101", "202"] (by decide) none none

/-- **C4.** The normal-mode work list is the owned identifiers minus the known
catalog identifiers minus the identifiers already in the games log; an
identifier already in the games log at run start is never the subject of a
detail request during the run. -/
theorem c4_worklist_excludes_processed (s : Settings)
    (resp : String → DetailResponse) (software owned : List String)
    (gamesFile queueFile : Option (List String)) (app_id : String) :
    (app_id ∈ computeWorkList owned software (getExistingGames gamesFile) ↔
      app_id ∈ owned ∧ app_id ∉ software ∧ app_id ∉ getExistingGames gamesFile) ∧
    (app_id ∈ getExistingGames gamesFile →
      Event.detailRequest app_id ∉
        (process_games s resp software owned gamesFile queueFile).events) := by
  constructor
  · simp [computeWorkList, List.mem_filter]
  · intro hex hcontra
    rw [process_games, processGamesList_events] at hcontra
    simp at hcontra
    rcases hcontra with hcontra | hcontra
    · have hmem := runLoop_requests_mem _ _ _ _ _ hcontra
      rw [computeWorkList, List.mem_filter] at hmem
      simp at hmem
      exact hmem.2.2 hex
    · split_ifs at hcontra <;> simp at hcontra

/-- Witness for C4: identifier `"202"` already sits in the games log, so the
run on library `["101", "202"]` issues no detail request for it. -/
theorem c4_worklist_excludes_processed_witness :
    Event.detailRequest "202" ∉
      (process_games normalSettings sampleResp [] ["101", "202"]
        (some ["202 #Old [Unknown]"]) none).events :=
  (c4_worklist_excludes_processed normalSettings sampleResp [] ["101", "202"]
    (some ["202 #Old [Unknown]"]) none "202").2 (by decide)

/-- Counterexample to **C5**: in normal mode an empty work list does *not*
transition directly to Done — `_process_games_list` is still entered and its
blocking confirmation prompt (line 252) is reached before the "no games"
outcome is logged, contradicting "without reaching the confirmation gate". -/
theorem c5_confirm_gate_counterexample :
    Event.confirm ∈
      (process_games normalSettings sampleResp [] []
        (some ["7 #Old [Win]"]) (some ["win64|7|Public|"])).events := by
  decide

/-- **C5 (amended).** In file mode an empty parsed work list stops before the
confirmation gate, logging only the "no games" outcome and touching neither
file. In normal mode an empty work list still passes the confirmation gate,
but issues no detail request, writes neither the games log nor the queue
file, and logs the "no games" outcome. -/
theorem c5_empty_worklist (s : Settings) (resp : String → DetailResponse)
    (lines : List String) (software owned : List String)
    (gamesFile queueFile : Option (List String)) :
    (parseInputFile lines = [] →
      process_queue_from_file s resp (some lines) gamesFile queueFile =
        { events := [Event.logNoGames], gamesFile := gamesFile,
          queueFile := queueFile }) ∧
    (computeWorkList owned software (getExistingGames gamesFile) = [] →
      process_games s resp software owned gamesFile queueFile =
        { events := [Event.confirm, Event.logNoGames],
          gamesFile := gamesFile, queueFile := queueFile }) := by
  constructor
  · intro h
    simp [process_queue_from_file, h]
  · intro h
    rw [process_games, h]
    rfl

/-- Witness for C5 (amended): an input file of blank lines in file mode, and
an empty library in normal mode. -/
theorem c5_empty_worklist_witness :
    process_queue_from_file normalSettings sampleResp (some ["", "  "])
        (some ["g #G [Win]"]) (some ["win64|g|Public|"]) =
      { events := [Event.logNoGames], gamesFile := some ["g #G [Win]"],
        queueFile := some ["win64|g|Public|"] } ∧
    process_games normalSettings sampleResp [] [] (some ["g #G [Win]"])
        (some ["win64|g|Public|"]) =
      { events := [Event.confirm, Event.logNoGames],
        gamesFile := some ["g #G [Win]"], queueFile := some ["win64|g|Public|"] } := by
  have h := c5_empty_worklist normalSettings sampleResp ["", "  "] [] []
    (some ["g #G [Win]"]) (some ["win64|g|Public|"])
  exact ⟨h.1 (by decide), h.2 (by decide)⟩

/-- **C6.** With test mode enabled, a run classifies exactly
`min (work list size) test_limit` identifiers, and when the work list is
longer than the limit it terminates through the test-limit break (a normal,
logged termination) rather than processing further items. -/
theorem c6_test_mode_cap (s : Settings) (resp : String → DetailResponse)
    (gf qf : Option (List String)) (ids : List String)
    (htm : s.test_mode = true) :
    ((processGamesList s resp gf qf ids).events.countP isDetailRequest =
      min ids.length s.test_limit) ∧
    (s.test_limit < ids.length →
      Event.logTestLimit ∈ (processGamesList s resp gf qf ids).events) := by
  constructor
  · rw [processGamesList_events]
    rw [List.countP_cons]
    rw [List.countP_append]
    have h1 := runLoop_count_test s resp htm ids 0
    rw [h1]
    split_ifs <;> simp_all [isDetailRequest]
  · intro hlt
    rw [processGamesList_events]
    have h2 := (runLoop_testlimit_mem s resp htm ids 0).2 (by omega)
    simp [h2]

/-- Witness for C6: `test_limit = 3` and ten identifiers — exactly 3 detail
requests, and the test-limit termination is logged. -/
theorem c6_test_mode_cap_witness :
    (processGamesList testModeSettings sampleResp none none
      tenIds).events.countP isDetailRequest = 3 ∧
    Event.logTestLimit ∈
      (processGamesList testModeSettings sampleResp none none tenIds).events := by
  have h := c6_test_mode_cap testModeSettings sampleResp none none tenIds rfl
  exact ⟨by rw [h.1]; decide, h.2 (by decide)⟩

/-- **C7.** With at least one queue-eligible entry, the queue file after the
run is exactly the current run's queue lines — one line
`"{platform}|{identifier}|Public|"` per queue-eligible (platform, identifier)
pair, nothing from prior runs — and the created-queue summary is logged; with
zero queue-eligible entries the previous queue file is left unchanged and the
"no valid games" outcome is logged. (Stated for runs whose loop is not
truncated by test mode.) -/
theorem c7_queue_file_overwrite (s : Settings) (resp : String → DetailResponse)
    (gf qf : Option (List String)) (ids : List String)
    (htm : s.test_mode = false) :
    (ids.flatMap (queueLines s resp) ≠ [] →
      (processGamesList s resp gf qf ids).queueFile =
        some (ids.flatMap (queueLines s resp)) ∧
      Event.logCreatedQueue ((ids.flatMap (queueLines s resp)).length) ∈
        (processGamesList s resp gf qf ids).events) ∧
    (ids.flatMap (queueLines s resp) = [] →
      (processGamesList s resp gf qf ids).queueFile = qf ∧
      Event.logNoGames ∈ (processGamesList s resp gf qf ids).events) ∧
    (∀ line ∈ ids.flatMap (queueLines s resp), ∃ platform app_id,
      app_id ∈ ids ∧
      platform ∈ (get_platforms s app_id (resp app_id)).queue_platforms ∧
      line = platform ++ "|" ++ app_id ++ "|Public|") := by
  refine ⟨?_, ?_, ?_⟩
  · intro hne
    rw [processGamesList_queueFile, processGamesList_events,
      runLoop_no_test s resp htm]
    simp [hne]
  · intro he
    rw [processGamesList_queueFile, processGamesList_events,
      runLoop_no_test s resp htm]
    simp [he]
  · intro line hline
    rw [List.mem_flatMap] at hline
    obtain ⟨app_id, hid, hl⟩ := hline
    rw [queueLines, List.mem_map] at hl
    obtain ⟨platform, hp, rfl⟩ := hl
    exact ⟨platform, app_id, hid, hp, rfl⟩

/-- Witness for C7: a run with one eligible identifier fully overwrites a
stale queue file; a run with none leaves it byte-for-byte unchanged and logs
"no valid games". -/
theorem c7_queue_file_overwrite_witness :
    (processGamesList normalSettings sampleResp none (some ["stale|1|Public|"])
      ["101", "202"]).queueFile = some ["win64|101|Public|"] ∧
    Event.logCreatedQueue 1 ∈
      (processGamesList normalSettings sampleResp none (some ["stale|1|Public|"])
        ["101", "202"]).events ∧
    (processGamesList normalSettings sampleResp none (some ["stale|1|Public|"])
      ["202"]).queueFile = some ["stale|1|Public|"] ∧
    Event.logNoGames ∈
      (processGamesList normalSettings sampleResp none (some ["stale|1|Public|"])
        ["202"]).events := by
  have h1 := (c7_queue_file_overwrite normalSettings sampleResp none
    (some ["stale|1|Public|"]) ["101", "202"] rfl).1 (by decide)
  have h2 := (c7_queue_file_overwrite normalSettings sampleResp none
    (some ["stale|1|Public|"]) ["202"] rfl).2.1 (by decide)
  refine ⟨h1.1.trans (by decide), ?_, h2.1, h2.2⟩
  have := h1.2
  rwa [show ((["101", "202"].flatMap
      (queueLines normalSettings sampleResp)).length) = 1 from by decide] at this

/-- **C8.** The rate limiter guarantees: consecutive call starts are at least
`rate_limit` apart (the interval is measured between the stored timestamps,
which are the call start times, regardless of when the second call is
attempted); with the timestamp initialized to zero, a first call at any time
`now ≥ rate_limit` does not sleep at all; and the stored timestamp is exactly
the wall-clock time after the sleep — i.e. it is set after blocking, before
the network call runs. -/
theorem c8_rate_limit :
    (∀ rate_limit last now1 now2 : ℚ,
      rate_limit ≤ rlNext rate_limit now2 (rlNext rate_limit now1 last) -
        rlNext rate_limit now1 last) ∧
    (∀ rate_limit now : ℚ, rate_limit ≤ now →
      rlSleep rate_limit now 0 = 0 ∧ rlNext rate_limit now 0 = now) ∧
    (∀ rate_limit now last : ℚ,
      rlNext rate_limit now last = now + rlSleep rate_limit now last) := by
  refine ⟨fun rl last n1 n2 => ?_, fun rl now h => ?_, fun _ _ _ => rfl⟩
  · have hlb := rlNext_lower_bound rl n2 (rlNext rl n1 last)
    linarith
  · have hs : rlSleep rl now 0 = 0 := by
      rw [rlSleep]
      split_ifs with hlt
      · exfalso
        rw [sub_zero] at hlt
        linarith
      · rfl
    exact ⟨hs, by rw [rlNext, hs, add_zero]⟩

/-- Witness for C8 at `rate_limit = 2`: two calls started at clock times 5
and 6 end up 2 apart; a first call at clock time 100 does not sleep. -/
theorem c8_rate_limit_witness :
    (2 : ℚ) ≤ rlNext 2 6 (rlNext 2 5 0) - rlNext 2 5 0 ∧
    rlSleep 2 100 0 = 0 ∧ rlNext 2 100 0 = 100 ∧
    rlNext 2 7 3 = 7 + rlSleep 2 7 3 := by
  have h := c8_rate_limit
  exact ⟨h.1 2 0 5 6, (h.2.1 2 100 (by norm_num)).1, (h.2.1 2 100 (by norm_num)).2,
    h.2.2 2 7 3⟩

/-- **C9.** `get_software` is purely additive (the previous file contents stay
as an unmodified prefix), returns the union of pre-existing and fetched
identifiers, and is idempotent: a second run against the same remote entries
appends nothing, so no duplicate lines appear. The hypothesis asserts each
fetched entry yields a nonblank catalog line that parses back to its id
(true of the numeric store ids). -/
theorem c9_catalog_fetcher (softwareFile : Option (List String))
    (es : List (String × String))
    (H : ∀ e ∈ es, (pyStrip (catalogLine e.1 e.2) != "") = true ∧
      pySplitHead (catalogLine e.1 e.2) " #" = e.1) :
    (∃ appended, (get_software softwareFile es).1 =
      some (softwareFile.getD [] ++ appended)) ∧
    (∀ x, x ∈ (get_software softwareFile es).2 ↔
      x ∈ existingSoftwareIds softwareFile ∨ x ∈ es.map Prod.fst) ∧
    ((get_software ((get_software softwareFile es).1) es).1 =
      (get_software softwareFile es).1) := by
  refine ⟨⟨(getSoftwareLoop es (existingSoftwareIds softwareFile)).1, rfl⟩,
    fun x => getSoftwareLoop_ids_mem es _ x, ?_⟩
  have hcover := getSoftwareLoop_covered es H (existingSoftwareIds softwareFile)
  have hex2 : ∀ e ∈ es, e.1 ∈
      existingSoftwareIds (get_software softwareFile es).1 := by
    intro e he
    show e.1 ∈ existingSoftwareIds (some (softwareFile.getD [] ++ _))
    rw [existingSoftwareIds, parseIdLines_append]
    rcases hcover e he with hm | hm
    · rw [existingSoftwareIds_getD] at hm
      exact List.mem_append_left _ hm
    · exact List.mem_append_right _ hm
  have h1 : (get_software softwareFile es).1 =
      some (softwareFile.getD [] ++
        (getSoftwareLoop es (existingSoftwareIds softwareFile)).1) := rfl
  rw [show (get_software (get_software softwareFile es).1 es).1 =
      some (((get_software softwareFile es).1).getD [] ++
        (getSoftwareLoop es (existingSoftwareIds (get_software softwareFile es).1)).1)
    from rfl]
  rw [getSoftwareLoop_appends_none es _ hex2, h1]
  simp

/-- Witness for C9: one pre-existing line, one new entry — the file grows by
one appended line, the returned set is the union, and a second identical run
leaves the file unchanged. -/
theorem c9_catalog_fetcher_witness :
    (∃ appended, (get_software (some ["1 #Alpha"]) [("2", "Beta")]).1 =
      some ((some ["1 #Alpha"]).getD [] ++ appended)) ∧
    ("2" ∈ (get_software (some ["1 #Alpha"]) [("2", "Beta")]).2) ∧
    ((get_software ((get_software (some ["1 #Alpha"]) [("2", "Beta")]).1)
        [("2", "Beta")]).1 =
      (get_software (some ["1 #Alpha"]) [("2", "Beta")]).1) := by
  have h := c9_catalog_fetcher (some ["1 #Alpha"]) [("2", "Beta")] (by decide)
  exact ⟨h.1, (h.2.1 "2").mpr (Or.inr (by decide)), h.2.2⟩

/-- **C10.** In `get_platforms`, the shared timestamp is advanced by
`_enforce_rate_limit` before the request is attempted: the stored timestamp
is the same whatever the response outcome (success, failure, or exception),
and any later call is still delayed at least `rate_limit` past this
attempt's start. -/
theorem c10_timestamp_before_request :
    (∀ (s : Settings) (rate_limit : ℚ) (app_id : String)
        (resp1 resp2 : DetailResponse) (now last : ℚ),
      (get_platforms_timed s rate_limit app_id resp1 now last).2 =
        (get_platforms_timed s rate_limit app_id resp2 now last).2) ∧
    (∀ (s : Settings) (rate_limit : ℚ) (app_id : String) (resp : DetailResponse)
        (now last now2 : ℚ),
      (get_platforms_timed s rate_limit app_id resp now last).2 + rate_limit ≤
        rlNext rate_limit now2
          ((get_platforms_timed s rate_limit app_id resp now last).2)) := by
  exact ⟨fun _ _ _ _ _ _ _ => rfl,
    fun s rl a r now last now2 => rlNext_lower_bound rl now2 _⟩

end SteamQueueCreator
